import Mathlib

/-!
# Vector operations of tmatrix (`tmatrix_vec.c`)

A shallow embedding of `vec_len`, `vec_get`, `vec_set`, `vec_dot`,
`vec_cross`, `vec_norm2` and `vec_normalize`, followed by the properties
proved about them.

Modelling conventions.

* A matrix handle (`tMat *`) is `Option Nat`: `none` is the null pointer and
  `some h` points at the record `s.mat h`.  Two handles with the same `h` are
  the same record, so aliasing of arguments is represented.
* Element storage is one flat address space `s.mem : Nat → α`; a record's
  `data` field is the address of its first element, so a view is simply a
  record whose `data` points inside another record's buffer.
* The element type `tmVal` is a parameter `α` carrying the operations the code
  uses (`0`, `+`, `*`, `-`), so the definitions and the order of the arithmetic
  are those of the code for any such type.  The sizes and indices (`tmSize`,
  `int`) are natural numbers: the typedef of `tmSize` is in a header that is
  not part of the sources, and no wrap-around is modelled.
* The out-parameter `int *err` is returned as a component of the result: it is
  the value the function stores through `err` when `err` is not null.
* `malloc` is an input of `vec_cross`: `none` when the allocation fails,
  `some p` when it returns the address `p`.  `free` records the released
  address in `s.freed` and leaves `s.mem` as it is; reading released storage
  is not given a special meaning.
* `vec_normalize` also uses `/`, the test `sum > 0` and `sqrt` of `math.h`;
  the square root is an argument `sqrt : α → α` of the definition.
* Of the properties of `IS_PRIM` only `IS_PRIM m → m.width = m.cols` is used
  in the proofs below.
-/

namespace TMatrix

/-- Modelled from the spec: the error codes `TM_ERR_*` of the header that is
not part of the sources.  The spec lists them as distinct kinds and the code
uses `0` for "no error", which is `TM_OK` here. -/
inductive tmErr where
  | TM_OK
  | TM_ERR_WRONG_SIZE
  | TM_ERR_NOT_MAIN
  | TM_ERR_NO_MEMORY
  | TM_ERR_EMPTY_ARGS
  | TM_ERR_NOT_COMPAT
  | TM_ERR_NOT_DEF
  | TM_ERR_NOT_VEC
  deriving DecidableEq, Repr

/-- Modelled from the spec: the kind tag of a matrix record, declared in the
header that is not part of the sources.  `TM_MAIN` is the owning variant, any
other tag is a borrowed view. -/
inductive tmType where
  | TM_MAIN
  | TM_VIEW
  deriving DecidableEq, Repr

/-- Modelled from the spec: the matrix record `tMat` with the fields the code
reads (`data`, `rows`, `cols`, `width`, `type`); its declaration is in the
header that is not part of the sources. -/
structure tMat where
  data : Nat
  rows : Nat
  cols : Nat
  width : Nat
  type : tmType
  deriving DecidableEq, Repr

/-- The program state: matrix records by handle, element storage by address,
and the addresses handed to `free` so far (most recent first). -/
structure State (α : Type) where
  mat : Nat → tMat
  mem : Nat → α
  freed : List Nat

/-- Modelled from the spec: the addressing function `tm_at` of the matrix
layer, which is not part of the sources: the location of element
`(r, c)`, with `width` as the per-row stride. -/
def tm_at (m : tMat) (r c : Nat) : Nat :=
  m.data + (r * m.width + c)

/-- Modelled from the spec: the contiguity test `IS_PRIM`, a macro of the
private header that is not part of the sources: true only for owning
matrices whose `width` equals `cols`. -/
def IS_PRIM (m : tMat) : Bool :=
  m.type == tmType.TM_MAIN && m.width == m.cols

section Ops

variable {α : Type}

/-- The function `vec_len` (lines 12-22). -/
def vec_len (s : State α) (m : Option Nat) : Nat :=
  match m with
  | some h =>
    if (s.mat h).cols = 1 then (s.mat h).rows
    else if (s.mat h).rows = 1 then (s.mat h).cols
    else 0
  | none => 0

/-- The function `vec_get` (lines 24-50): the value returned and the error
code stored through `err`. -/
def vec_get [Zero α] (s : State α) (m : Option Nat) (k : Nat) : α × tmErr :=
  match m with
  | some h =>
    if (s.mat h).cols = 1 then
      if k < (s.mat h).rows then (s.mem (tm_at (s.mat h) k 0), tmErr.TM_OK)
      else (0, tmErr.TM_ERR_WRONG_SIZE)
    else if (s.mat h).rows = 1 then
      if k < (s.mat h).cols then (s.mem (tm_at (s.mat h) 0 k), tmErr.TM_OK)
      else (0, tmErr.TM_ERR_WRONG_SIZE)
    else (0, tmErr.TM_ERR_NOT_VEC)
  | none => (0, tmErr.TM_ERR_EMPTY_ARGS)

/-- The assignment `*p = v` on element storage. -/
def store (s : State α) (p : Nat) (v : α) : State α :=
  { s with mem := fun q => if q = p then v else s.mem q }

/-- The function `vec_set` (lines 52-75): the state afterwards and the error
code stored through `err`. -/
def vec_set (s : State α) (m : Option Nat) (k : Nat) (v : α) : State α × tmErr :=
  match m with
  | some h =>
    if (s.mat h).cols = 1 then
      if k < (s.mat h).rows then (store s (tm_at (s.mat h) k 0) v, tmErr.TM_OK)
      else (s, tmErr.TM_ERR_WRONG_SIZE)
    else if (s.mat h).rows = 1 then
      if k < (s.mat h).cols then (store s (tm_at (s.mat h) 0 k) v, tmErr.TM_OK)
      else (s, tmErr.TM_ERR_WRONG_SIZE)
    else (s, tmErr.TM_ERR_NOT_VEC)
  | none => (s, tmErr.TM_ERR_EMPTY_ARGS)

/-- The loop of the fast path of `vec_dot` (lines 86-87):
`for(i = 0; i < N1; i++) sum += a->data[i] * b->data[i];` started with
`sum = 0`. -/
def vec_dot_fast [Zero α] [Add α] [Mul α] (s : State α) (a b : tMat) (N1 : Nat) : α :=
  (List.range N1).foldl (fun sum i => sum + s.mem (a.data + i) * s.mem (b.data + i)) 0

/-- The loop of the generic path of `vec_dot` (lines 89-90):
`for(i = 0; i < N1 && !e; i++) sum += vec_get(a,i,&e) * vec_get(b,i,&e);`
started with `sum = 0`, `e = 0`.  An iteration whose guard `!e` fails leaves
`sum` and `e` as they are, which is what leaving the loop does.  The two calls
are taken left to right, so `e` ends as the code of the call on `b`. -/
def vec_dot_generic [Zero α] [Add α] [Mul α] (s : State α) (a b : Option Nat) (N1 : Nat) :
    α × tmErr :=
  (List.range N1).foldl
    (fun acc i =>
      if acc.2 = tmErr.TM_OK then
        (acc.1 + (vec_get s a i).1 * (vec_get s b i).1, (vec_get s b i).2)
      else acc)
    (0, tmErr.TM_OK)

/-- The function `vec_dot` (lines 77-100): the value returned and the error
code stored through `err`.  The last `match` arm is not reachable, since a
null handle has length 0. -/
def vec_dot [Zero α] [Add α] [Mul α] (s : State α) (a b : Option Nat) : α × tmErr :=
  if vec_len s a ≠ 0 ∧ vec_len s b ≠ 0 then
    if vec_len s a = vec_len s b then
      match a, b with
      | some ha, some hb =>
        if IS_PRIM (s.mat ha) && IS_PRIM (s.mat hb) then
          (vec_dot_fast s (s.mat ha) (s.mat hb) (vec_len s a), tmErr.TM_OK)
        else
          vec_dot_generic s a b (vec_len s a)
      | _, _ => (0, tmErr.TM_OK)
    else (0, tmErr.TM_ERR_NOT_COMPAT)
  else (0, tmErr.TM_ERR_NOT_VEC)

/-- The value of `!e` for an error code `e`. -/
def lnot (e : tmErr) : Nat :=
  if e = tmErr.TM_OK then 1 else 0

/-- Lines 131-143 of `vec_cross`: read the six operand components, write the
three components of the product through `vec_set` while `e` is 0, and return
`!e`, the error code and the state. -/
def vec_cross_write [Zero α] [Mul α] [Sub α] (s : State α) (res a b : Option Nat)
    (e : tmErr) : Nat × tmErr × State α :=
  let a0 := (vec_get s a 0).1
  let a1 := (vec_get s a 1).1
  let a2 := (vec_get s a 2).1
  let b0 := (vec_get s b 0).1
  let b1 := (vec_get s b 1).1
  let b2 := (vec_get s b 2).1
  let r0 := if e = tmErr.TM_OK then vec_set s res 0 (a1 * b2 - b1 * a2) else (s, e)
  let r1 := if r0.2 = tmErr.TM_OK then vec_set r0.1 res 1 (a2 * b0 - a0 * b2) else r0
  let r2 := if r1.2 = tmErr.TM_OK then vec_set r1.1 res 2 (a0 * b1 - b0 * a1) else r1
  (lnot r2.2, r2.2, r2.1)

/-- Lines 115-116 and 120-122 of `vec_cross`: release the buffer of record `r`,
install the buffer `data`, and make the record 3 rows by 1 column with
stride 1. -/
def vec_cross_install (s : State α) (r : Nat) (data : Nat) : State α :=
  { s with
    freed := (s.mat r).data :: s.freed
    mat := fun h =>
      if h = r then { s.mat r with data := data, rows := 3, cols := 1, width := 1 }
      else s.mat h }

/-- The function `vec_cross` (lines 102-144): the value returned, the error
code stored through `err`, and the state afterwards.  `alloc` is the result
`malloc` gives if it is called. -/
def vec_cross [Zero α] [Mul α] [Sub α] (s : State α) (alloc : Option Nat)
    (res a b : Option Nat) : Nat × tmErr × State α :=
  match res, a, b with
  | some r, some _, some _ =>
    if vec_len s a = 3 ∧ vec_len s b = 3 then
      if vec_len s res ≠ 3 then
        if (s.mat r).type = tmType.TM_MAIN then
          if (s.mat r).rows * (s.mat r).cols < 3 then
            match alloc with
            | some data => vec_cross_write (vec_cross_install s r data) res a b tmErr.TM_OK
            | none => (lnot tmErr.TM_ERR_NO_MEMORY, tmErr.TM_ERR_NO_MEMORY, s)
          else vec_cross_write s res a b tmErr.TM_OK
        else vec_cross_write s res a b tmErr.TM_ERR_NOT_MAIN
      else vec_cross_write s res a b tmErr.TM_OK
    else (lnot tmErr.TM_ERR_NOT_DEF, tmErr.TM_ERR_NOT_DEF, s)
  | _, _, _ => (lnot tmErr.TM_ERR_EMPTY_ARGS, tmErr.TM_ERR_EMPTY_ARGS, s)

/-- The summing loop of `vec_norm2` and `vec_normalize` (lines 154-157,
160-163, 182-185, 193-196): `for(i = 0; i < n; i++) { v = *p(i); sum += v * v; }`
started with `sum = 0`, where `p(i)` is `tm_at(m,i,0)` or `tm_at(m,0,i)`. -/
def vec_sq_sum [Zero α] [Add α] [Mul α] (s : State α) (p : Nat → Nat) (n : Nat) : α :=
  (List.range n).foldl (fun sum i => sum + s.mem (p i) * s.mem (p i)) 0

/-- The function `vec_norm2` (lines 146-172): the value returned and the error
code stored through `err`. -/
def vec_norm2 [Zero α] [Add α] [Mul α] (s : State α) (m : Option Nat) : α × tmErr :=
  match m with
  | some h =>
    if (s.mat h).cols = 1 then
      (vec_sq_sum s (fun i => tm_at (s.mat h) i 0) (s.mat h).rows, tmErr.TM_OK)
    else if (s.mat h).rows = 1 then
      (vec_sq_sum s (fun i => tm_at (s.mat h) 0 i) (s.mat h).cols, tmErr.TM_OK)
    else (0, tmErr.TM_ERR_NOT_VEC)
  | none => (0, tmErr.TM_ERR_EMPTY_ARGS)

/-- The dividing loop of `vec_normalize` (lines 188-189, 199-200):
`for(i = 0; i < n; i++) *p(i) /= sum;`, each iteration reading the element as
the iterations before it left it. -/
def vec_div_pass [Div α] (s : State α) (p : Nat → Nat) (n : Nat) (sum : α) : State α :=
  (List.range n).foldl (fun st i => store st (p i) (st.mem (p i) / sum)) s

/-- Lines 182-190 and 193-201 of `vec_normalize`: the summing loop, the test
`sum > 0`, and under it `sum = sqrt(sum)` and the dividing loop. -/
def vec_normalize_axis [Zero α] [Add α] [Mul α] [Div α] [LT α]
    [∀ x y : α, Decidable (x < y)] (sqrt : α → α) (s : State α) (p : Nat → Nat) (n : Nat) :
    State α :=
  if 0 < vec_sq_sum s p n then vec_div_pass s p n (sqrt (vec_sq_sum s p n)) else s

/-- The function `vec_normalize` (lines 174-210): the value returned (`!e`),
the error code stored through `err`, and the state afterwards.  The stores of
the dividing loop go to element storage, so the record `s.mat h` the loop
reads its bound and addresses from is the one of the state at entry. -/
def vec_normalize [Zero α] [Add α] [Mul α] [Div α] [LT α]
    [∀ x y : α, Decidable (x < y)] (sqrt : α → α) (s : State α) (m : Option Nat) :
    Nat × tmErr × State α :=
  match m with
  | some h =>
    if (s.mat h).cols = 1 then
      (lnot tmErr.TM_OK, tmErr.TM_OK,
        vec_normalize_axis sqrt s (fun i => tm_at (s.mat h) i 0) (s.mat h).rows)
    else if (s.mat h).rows = 1 then
      (lnot tmErr.TM_OK, tmErr.TM_OK,
        vec_normalize_axis sqrt s (fun i => tm_at (s.mat h) 0 i) (s.mat h).cols)
    else (lnot tmErr.TM_ERR_NOT_VEC, tmErr.TM_ERR_NOT_VEC, s)
  | none => (lnot tmErr.TM_ERR_EMPTY_ARGS, tmErr.TM_ERR_EMPTY_ARGS, s)

end Ops

/-- The address of element `k` of a row or column vector: `tm_at(m,k,0)` for
a column vector, `tm_at(m,0,k)` otherwise, as `vec_get` and `vec_set` choose
it. -/
def vec_addr (m : tMat) (k : Nat) : Nat :=
  if m.cols = 1 then tm_at m k 0 else tm_at m 0 k

/-- The three components of the cross product of the vectors `a` and `b` as
read in state `s`, in the order and form of lines 133-135. -/
def cross_val {α : Type} [Zero α] [Mul α] [Sub α] (s : State α) (a b : Option Nat) :
    α × α × α :=
  ((vec_get s a 1).1 * (vec_get s b 2).1 - (vec_get s b 1).1 * (vec_get s a 2).1,
   (vec_get s a 2).1 * (vec_get s b 0).1 - (vec_get s a 0).1 * (vec_get s b 2).1,
   (vec_get s a 0).1 * (vec_get s b 1).1 - (vec_get s b 0).1 * (vec_get s a 1).1)

/-- A state with three records over integer storage: record 0 has shape
`ra × ca`, stride `wa`, kind `ta` and buffer at address 0; records 1 and 2 are
`3 × 1` owning columns at addresses 10 and 20.  Storage holds `xs` from
address 0, `ys` from address 10 and `zs` from address 20. -/
def demo (ra ca wa : Nat) (ta : tmType) (xs ys zs : List Int) : State Int where
  mat := fun h =>
    if h = 0 then ⟨0, ra, ca, wa, ta⟩
    else if h = 1 then ⟨10, 3, 1, 1, tmType.TM_MAIN⟩
    else ⟨20, 3, 1, 1, tmType.TM_MAIN⟩
  mem := fun p =>
    if p < 10 then xs.getD p 0
    else if p < 20 then ys.getD (p - 10) 0
    else zs.getD (p - 20) 0
  freed := []

/-- The state `s` with every stored element sent through `f`; records and
released addresses are kept. -/
def mapState {α β : Type} (f : α → β) (s : State α) : State β where
  mat := s.mat
  mem := fun p => f (s.mem p)
  freed := s.freed

/-- The sum of the spec, `sum_{i=0}^{n-1} x i * y i`, accumulated left to
right starting from 0. -/
def dot_sum {α : Type} [Zero α] [Add α] [Mul α] (x y : Nat → α) : Nat → α
  | 0 => 0
  | n + 1 => dot_sum x y n + x n * y n

/-! ## Lemmas on the accessors -/

section Lemmas

variable {α : Type}

theorem vec_len_pos_cases (s : State α) (h : Nat) (hn : vec_len s (some h) ≠ 0) :
    (s.mat h).cols = 1 ∨ ((s.mat h).cols ≠ 1 ∧ (s.mat h).rows = 1) := by
  unfold vec_len at hn
  by_cases hc : (s.mat h).cols = 1
  · exact Or.inl hc
  · by_cases hr : (s.mat h).rows = 1
    · exact Or.inr ⟨hc, hr⟩
    · simp [hc, hr] at hn

theorem vec_get_in_range [Zero α] (s : State α) (h k : Nat) (hk : k < vec_len s (some h)) :
    vec_get s (some h) k
      = (s.mem (if (s.mat h).cols = 1 then tm_at (s.mat h) k 0 else tm_at (s.mat h) 0 k),
          tmErr.TM_OK) := by
  unfold vec_len at hk
  unfold vec_get
  by_cases hc : (s.mat h).cols = 1
  · simp only [hc, if_true] at hk ⊢
    simp [hk]
  · by_cases hr : (s.mat h).rows = 1
    · simp only [hc, hr, if_true, if_false] at hk ⊢
      simp [hk]
    · simp [hc, hr] at hk

theorem vec_get_prim [Zero α] (s : State α) (h k : Nat) (hk : k < vec_len s (some h))
    (hp : IS_PRIM (s.mat h) = true) :
    (vec_get s (some h) k).1 = s.mem ((s.mat h).data + k) := by
  rw [vec_get_in_range s h k hk]
  have hw : (s.mat h).width = (s.mat h).cols := by
    simp [IS_PRIM] at hp
    exact hp.2
  by_cases hc : (s.mat h).cols = 1
  · simp [hc, tm_at, hw]
  · simp [hc, tm_at]

theorem foldl_range_dot_sum [Zero α] [Add α] [Mul α] (x y : Nat → α) (n : Nat) :
    (List.range n).foldl (fun sum i => sum + x i * y i) 0 = dot_sum x y n := by
  induction n with
  | zero => rfl
  | succ n ih => simp [List.range_succ, List.foldl_append, ih, dot_sum]

theorem dot_sum_congr [Zero α] [Add α] [Mul α] (x y x1 y1 : Nat → α) (n : Nat)
    (hx : ∀ i, i < n → x i = x1 i) (hy : ∀ i, i < n → y i = y1 i) :
    dot_sum x y n = dot_sum x1 y1 n := by
  induction n with
  | zero => rfl
  | succ n ih =>
    simp only [dot_sum]
    rw [ih (fun i hi => hx i (Nat.lt_succ_of_lt hi)) (fun i hi => hy i (Nat.lt_succ_of_lt hi)),
      hx n (Nat.lt_succ_self n), hy n (Nat.lt_succ_self n)]

theorem vec_dot_fast_eq [Zero α] [Add α] [Mul α] (s : State α) (a b : tMat) (n : Nat) :
    vec_dot_fast s a b n
      = dot_sum (fun i => s.mem (a.data + i)) (fun i => s.mem (b.data + i)) n := by
  unfold vec_dot_fast
  exact foldl_range_dot_sum _ _ n

theorem vec_dot_generic_eq [Zero α] [Add α] [Mul α] (s : State α) (a b : Option Nat) (n : Nat)
    (hb : ∀ i, i < n → (vec_get s b i).2 = tmErr.TM_OK) :
    vec_dot_generic s a b n
      = (dot_sum (fun i => (vec_get s a i).1) (fun i => (vec_get s b i).1) n, tmErr.TM_OK) := by
  induction n with
  | zero => rfl
  | succ n ih =>
    have ih1 := ih (fun i hi => hb i (Nat.lt_succ_of_lt hi))
    unfold vec_dot_generic at ih1 ⊢
    rw [List.range_succ, List.foldl_append, ih1]
    simp [dot_sum, hb n (Nat.lt_succ_self n)]

/-- Both paths of `vec_dot` on two present vectors of equal nonzero length. -/
theorem vec_dot_eq_dot_sum [Zero α] [Add α] [Mul α] (s : State α) (ha hb n : Nat)
    (hn : 0 < n) (hla : vec_len s (some ha) = n) (hlb : vec_len s (some hb) = n) :
    vec_dot s (some ha) (some hb)
      = (dot_sum (fun i => (vec_get s (some ha) i).1) (fun i => (vec_get s (some hb) i).1) n,
          tmErr.TM_OK) := by
  have hn0 : n ≠ 0 := Nat.pos_iff_ne_zero.mp hn
  unfold vec_dot
  simp only [hla, hlb, ne_eq, hn0, not_false_eq_true, and_self, if_true]
  by_cases hp : (IS_PRIM (s.mat ha) && IS_PRIM (s.mat hb)) = true
  · simp only [hp, if_true]
    rw [vec_dot_fast_eq]
    have hpa : IS_PRIM (s.mat ha) = true := by simp at hp; exact hp.1
    have hpb : IS_PRIM (s.mat hb) = true := by simp at hp; exact hp.2
    congr 1
    apply dot_sum_congr
    · intro i hi
      exact (vec_get_prim s ha i (hla ▸ hi) hpa).symm
    · intro i hi
      exact (vec_get_prim s hb i (hlb ▸ hi) hpb).symm
  · simp only [hp]
    apply vec_dot_generic_eq
    intro i hi
    rw [vec_get_in_range s hb i (hlb ▸ hi)]

theorem vec_set_in_range (s : State α) (h k : Nat) (v : α) (hk : k < vec_len s (some h)) :
    vec_set s (some h) k v = (store s (vec_addr (s.mat h) k) v, tmErr.TM_OK) := by
  unfold vec_len at hk
  unfold vec_set vec_addr
  by_cases hc : (s.mat h).cols = 1
  · simp only [hc, if_true] at hk ⊢
    simp [hk]
  · by_cases hr : (s.mat h).rows = 1
    · simp only [hc, hr, if_true, if_false] at hk ⊢
      simp [hk]
    · simp [hc, hr] at hk

theorem vec_get_eq_addr [Zero α] (s : State α) (h k : Nat) (hk : k < vec_len s (some h)) :
    vec_get s (some h) k = (s.mem (vec_addr (s.mat h) k), tmErr.TM_OK) := by
  rw [vec_get_in_range s h k hk]
  unfold vec_addr
  by_cases hc : (s.mat h).cols = 1 <;> simp [hc]

theorem vec_len_store (s : State α) (p : Nat) (v : α) (m : Option Nat) :
    vec_len (store s p v) m = vec_len s m := rfl

/-- Distinct indices of a vector with `cols ≤ width` have distinct addresses. -/
theorem vec_addr_ne (m : tMat) (hw : m.cols ≤ m.width) (j k : Nat) (hjk : j ≠ k) :
    vec_addr m j ≠ vec_addr m k := by
  unfold vec_addr tm_at
  by_cases hc : m.cols = 1
  · simp only [hc, if_true, Nat.add_zero]
    have h1 : 1 ≤ m.width := hc ▸ hw
    intro h
    have h2 : j * m.width = k * m.width := Nat.add_left_cancel h
    exact hjk (Nat.eq_of_mul_eq_mul_right h1 h2)
  · simp only [hc, if_false, Nat.zero_mul, Nat.zero_add]
    intro h
    exact hjk (Nat.add_left_cancel h)

/-- The write phase of `vec_cross` on a destination of length 3, entered with
`e = 0`: three stores, success. -/
theorem vec_cross_write_len3 [Zero α] [Mul α] [Sub α] (s : State α) (r : Nat)
    (a b : Option Nat) (hr : vec_len s (some r) = 3) :
    vec_cross_write s (some r) a b tmErr.TM_OK
      = (1, tmErr.TM_OK,
          store (store (store s (vec_addr (s.mat r) 0) (cross_val s a b).1)
            (vec_addr (s.mat r) 1) (cross_val s a b).2.1)
            (vec_addr (s.mat r) 2) (cross_val s a b).2.2) := by
  unfold vec_cross_write
  have h0 : 0 < vec_len s (some r) := by omega
  simp only [if_true]
  rw [vec_set_in_range s r 0 _ h0]
  simp only [if_true]
  rw [vec_set_in_range _ r 1 _ (by show 1 < vec_len s (some r); omega)]
  simp only [if_true]
  rw [vec_set_in_range _ r 2 _ (by show 2 < vec_len s (some r); omega)]
  rfl

/-- Reading back the three components after the three stores. -/
theorem vec_get_after_stores [Zero α] (s : State α) (r : Nat) (v0 v1 v2 : α)
    (hr : vec_len s (some r) = 3) (hw : (s.mat r).cols ≤ (s.mat r).width) :
    vec_get (store (store (store s (vec_addr (s.mat r) 0) v0) (vec_addr (s.mat r) 1) v1)
        (vec_addr (s.mat r) 2) v2) (some r) 0 = (v0, tmErr.TM_OK)
      ∧ vec_get (store (store (store s (vec_addr (s.mat r) 0) v0) (vec_addr (s.mat r) 1) v1)
        (vec_addr (s.mat r) 2) v2) (some r) 1 = (v1, tmErr.TM_OK)
      ∧ vec_get (store (store (store s (vec_addr (s.mat r) 0) v0) (vec_addr (s.mat r) 1) v1)
        (vec_addr (s.mat r) 2) v2) (some r) 2 = (v2, tmErr.TM_OK) := by
  have h01 := vec_addr_ne (s.mat r) hw 0 1 (by decide)
  have h02 := vec_addr_ne (s.mat r) hw 0 2 (by decide)
  have h12 := vec_addr_ne (s.mat r) hw 1 2 (by decide)
  refine ⟨?_, ?_, ?_⟩
  · rw [vec_get_eq_addr _ r 0 (by show 0 < vec_len s (some r); omega)]
    simp [store, h01, h02]
  · rw [vec_get_eq_addr _ r 1 (by show 1 < vec_len s (some r); omega)]
    simp [store, h12]
  · rw [vec_get_eq_addr _ r 2 (by show 2 < vec_len s (some r); omega)]
    simp [store]

/-- With all three handles present, both operands of length 3 and the
destination of length 3, `vec_cross` goes straight to the write phase. -/
theorem vec_cross_eq_write [Zero α] [Mul α] [Sub α] (s : State α) (alloc : Option Nat)
    (r ha hb : Nat) (hla : vec_len s (some ha) = 3) (hlb : vec_len s (some hb) = 3)
    (hlr : vec_len s (some r) = 3) :
    vec_cross s alloc (some r) (some ha) (some hb)
      = vec_cross_write s (some r) (some ha) (some hb) tmErr.TM_OK := by
  simp [vec_cross, hla, hlb, hlr]

/-- The write phase entered with a nonzero error code writes nothing. -/
theorem vec_cross_write_err [Zero α] [Mul α] [Sub α] (s : State α) (res a b : Option Nat)
    (e : tmErr) (he : e ≠ tmErr.TM_OK) :
    vec_cross_write s res a b e = (0, e, s) := by
  simp [vec_cross_write, lnot, he]

theorem vec_get_install [Zero α] (s : State α) (r p h k : Nat) (hne : h ≠ r) :
    vec_get (vec_cross_install s r p) (some h) k = vec_get s (some h) k := by
  simp [vec_get, vec_cross_install, hne]

theorem vec_len_install_ne (s : State α) (r p h : Nat) (hne : h ≠ r) :
    vec_len (vec_cross_install s r p) (some h) = vec_len s (some h) := by
  simp [vec_len, vec_cross_install, hne]

theorem vec_len_install (s : State α) (r p : Nat) :
    vec_len (vec_cross_install s r p) (some r) = 3 := by
  simp [vec_len, vec_cross_install]

theorem cross_val_install [Zero α] [Mul α] [Sub α] (s : State α) (r p ha hb : Nat)
    (hna : ha ≠ r) (hnb : hb ≠ r) :
    cross_val (vec_cross_install s r p) (some ha) (some hb) = cross_val s (some ha) (some hb) := by
  simp only [cross_val, vec_get_install s r p ha _ hna, vec_get_install s r p hb _ hnb]

/-- Every path of `vec_cross` returns `!e` for the error code `e` it reports. -/
theorem vec_cross_ret [Zero α] [Mul α] [Sub α] (s : State α) (alloc res a b : Option Nat) :
    (vec_cross s alloc res a b).1 = lnot (vec_cross s alloc res a b).2.1 := by
  unfold vec_cross
  split
  · split
    · split
      · split
        · split
          · split <;> rfl
          · rfl
        · rfl
      · rfl
    · rfl
  · rfl

theorem dot_sum_comm [Zero α] [Add α] [CommMagma α] (x y : Nat → α) (n : Nat) :
    dot_sum x y n = dot_sum y x n := by
  induction n with
  | zero => rfl
  | succ n ih => simp only [dot_sum, ih, mul_comm]

/-! ### Squared norm and normalization -/

theorem vec_sq_sum_eq [Zero α] [Add α] [Mul α] (s : State α) (p : Nat → Nat) (n : Nat) :
    vec_sq_sum s p n = dot_sum (fun i => s.mem (p i)) (fun i => s.mem (p i)) n := by
  unfold vec_sq_sum
  exact foldl_range_dot_sum _ _ n

theorem vec_addr_col (m : tMat) (hc : m.cols = 1) :
    (fun i => tm_at m i 0) = vec_addr m := by
  funext i
  simp [vec_addr, hc]

theorem vec_addr_row (m : tMat) (hc : m.cols ≠ 1) :
    (fun i => tm_at m 0 i) = vec_addr m := by
  funext i
  simp [vec_addr, hc]

/-- On a present row or column vector `vec_norm2` is the summing loop over the
element addresses, with error 0. -/
theorem vec_norm2_vec [Zero α] [Add α] [Mul α] (s : State α) (h : Nat)
    (hv : (s.mat h).cols = 1 ∨ (s.mat h).rows = 1) :
    vec_norm2 s (some h)
      = (vec_sq_sum s (vec_addr (s.mat h)) (vec_len s (some h)), tmErr.TM_OK) := by
  unfold vec_norm2 vec_len
  by_cases hc : (s.mat h).cols = 1
  · simp only [hc, if_true]
    rw [vec_addr_col (s.mat h) hc]
  · have hr : (s.mat h).rows = 1 := hv.resolve_left hc
    simp only [hc, hr, if_true, if_false]
    rw [vec_addr_row (s.mat h) hc]

theorem vec_norm2_eq_get [Zero α] [Add α] [Mul α] (s : State α) (h : Nat)
    (hv : (s.mat h).cols = 1 ∨ (s.mat h).rows = 1) :
    vec_norm2 s (some h)
      = (dot_sum (fun i => (vec_get s (some h) i).1) (fun i => (vec_get s (some h) i).1)
          (vec_len s (some h)), tmErr.TM_OK) := by
  rw [vec_norm2_vec s h hv, vec_sq_sum_eq]
  congr 1
  apply dot_sum_congr <;>
  · intro i hi
    rw [vec_get_eq_addr s h i hi]

/-- On a present row or column vector `vec_normalize` succeeds and its state
is that of the two passes over the element addresses. -/
theorem vec_normalize_vec [Zero α] [Add α] [Mul α] [Div α] [LT α]
    [∀ x y : α, Decidable (x < y)] (sqrt : α → α) (s : State α) (h : Nat)
    (hv : (s.mat h).cols = 1 ∨ (s.mat h).rows = 1) :
    vec_normalize sqrt s (some h)
      = (1, tmErr.TM_OK,
          vec_normalize_axis sqrt s (vec_addr (s.mat h)) (vec_len s (some h))) := by
  unfold vec_normalize vec_len
  by_cases hc : (s.mat h).cols = 1
  · simp only [hc, if_true]
    rw [vec_addr_col (s.mat h) hc]
    rfl
  · have hr : (s.mat h).rows = 1 := hv.resolve_left hc
    simp only [hc, hr, if_true, if_false]
    rw [vec_addr_row (s.mat h) hc]
    rfl

theorem vec_div_pass_succ [Div α] (s : State α) (p : Nat → Nat) (n : Nat) (r : α) :
    vec_div_pass s p (n + 1) r
      = store (vec_div_pass s p n r) (p n) ((vec_div_pass s p n r).mem (p n) / r) := by
  unfold vec_div_pass
  rw [List.range_succ, List.foldl_append]
  rfl

theorem vec_div_pass_mat [Div α] (s : State α) (p : Nat → Nat) (n : Nat) (r : α) :
    (vec_div_pass s p n r).mat = s.mat ∧ (vec_div_pass s p n r).freed = s.freed := by
  induction n with
  | zero => exact ⟨rfl, rfl⟩
  | succ n ih =>
    rw [vec_div_pass_succ]
    exact ih

/-- The dividing loop leaves every address it does not visit as it was. -/
theorem vec_div_pass_other [Div α] (s : State α) (p : Nat → Nat) (n : Nat) (r : α) (q : Nat)
    (hq : ∀ i, i < n → p i ≠ q) :
    (vec_div_pass s p n r).mem q = s.mem q := by
  induction n with
  | zero => rfl
  | succ n ih =>
    rw [vec_div_pass_succ]
    have hne : q ≠ p n := fun h => hq n (Nat.lt_succ_self n) h.symm
    simp only [store, hne, if_false]
    exact ih (fun i hi => hq i (Nat.lt_succ_of_lt hi))

/-- When the visited addresses are pairwise distinct, the dividing loop
divides each visited element once. -/
theorem vec_div_pass_at [Div α] (s : State α) (p : Nat → Nat) (n : Nat) (r : α)
    (hinj : ∀ i j, i ≠ j → p i ≠ p j) (i : Nat) (hi : i < n) :
    (vec_div_pass s p n r).mem (p i) = s.mem (p i) / r := by
  induction n with
  | zero => exact absurd hi (Nat.not_lt_zero i)
  | succ n ih =>
    rw [vec_div_pass_succ]
    by_cases hin : i = n
    · subst hin
      simp only [store, if_true]
      rw [vec_div_pass_other s p i r (p i) (fun j hj => hinj j i (Nat.ne_of_lt hj))]
    · have hne : p i ≠ p n := hinj i n hin
      simp only [store, hne, if_false]
      exact ih (by omega)

theorem dot_sum_all_zero [MulZeroClass α] [Add α] (x : Nat → α) (n : Nat)
    (h0 : (0 : α) + 0 = 0) (hx : ∀ i, i < n → x i = 0) :
    dot_sum x x n = 0 := by
  induction n with
  | zero => rfl
  | succ n ih =>
    simp only [dot_sum]
    rw [ih (fun i hi => hx i (Nat.lt_succ_of_lt hi)), hx n (Nat.lt_succ_self n), mul_zero, h0]

theorem dot_sum_self_nonneg [LinearOrderedRing α] (x : Nat → α) (n : Nat) :
    0 ≤ dot_sum x x n := by
  induction n with
  | zero => exact le_refl _
  | succ n ih =>
    simp only [dot_sum]
    exact add_nonneg ih (mul_self_nonneg _)

theorem dot_sum_self_pos [LinearOrderedRing α] (x : Nat → α) (n : Nat)
    (hx : ∃ i, i < n ∧ x i ≠ 0) :
    0 < dot_sum x x n := by
  induction n with
  | zero =>
    obtain ⟨i, hi, _⟩ := hx
    exact absurd hi (Nat.not_lt_zero i)
  | succ n ih =>
    simp only [dot_sum]
    obtain ⟨i, hi, hne⟩ := hx
    by_cases hin : i = n
    · subst hin
      exact add_pos_of_nonneg_of_pos (dot_sum_self_nonneg x i) (mul_self_pos.mpr hne)
    · exact add_pos_of_pos_of_nonneg (ih ⟨i, by omega, hne⟩) (mul_self_nonneg _)

theorem dot_sum_div [Field α] (x y : Nat → α) (r : α) (n : Nat) :
    dot_sum (fun i => x i / r) (fun i => y i / r) n = dot_sum x y n / (r * r) := by
  induction n with
  | zero => simp [dot_sum]
  | succ n ih =>
    simp only [dot_sum]
    rw [ih, div_mul_div_comm, add_div]

theorem vec_len_mat_eq {β : Type} (s : State α) (s1 : State β) (hm : s1.mat = s.mat)
    (m : Option Nat) :
    vec_len s1 m = vec_len s m := by
  cases m with
  | none => rfl
  | some h => simp only [vec_len, hm]

/-- Both passes of `vec_normalize` over the reals, on pairwise distinct
addresses holding at least one nonzero element: records and released addresses
are kept, each visited element is divided by the root of the sum of squares,
and the sum of squares afterwards is 1. -/
theorem vec_normalize_axis_real (s : State ℝ) (p : Nat → Nat) (n : Nat)
    (hinj : ∀ i j, i ≠ j → p i ≠ p j) (hnz : ∃ i, i < n ∧ s.mem (p i) ≠ 0) :
    (vec_normalize_axis Real.sqrt s p n).mat = s.mat
      ∧ (vec_normalize_axis Real.sqrt s p n).freed = s.freed
      ∧ (∀ i, i < n → (vec_normalize_axis Real.sqrt s p n).mem (p i)
          = s.mem (p i) / Real.sqrt (vec_sq_sum s p n))
      ∧ vec_sq_sum (vec_normalize_axis Real.sqrt s p n) p n = 1 := by
  have hS : vec_sq_sum s p n = dot_sum (fun i => s.mem (p i)) (fun i => s.mem (p i)) n :=
    vec_sq_sum_eq s p n
  have hpos : 0 < vec_sq_sum s p n := by
    rw [hS]
    exact dot_sum_self_pos (fun i => s.mem (p i)) n hnz
  have hstep : vec_normalize_axis Real.sqrt s p n
      = vec_div_pass s p n (Real.sqrt (vec_sq_sum s p n)) := by
    unfold vec_normalize_axis
    rw [if_pos hpos]
  have hat : ∀ i, i < n → (vec_div_pass s p n (Real.sqrt (vec_sq_sum s p n))).mem (p i)
      = s.mem (p i) / Real.sqrt (vec_sq_sum s p n) :=
    fun i hi => vec_div_pass_at s p n _ hinj i hi
  rw [hstep]
  refine ⟨(vec_div_pass_mat s p n _).1, (vec_div_pass_mat s p n _).2, hat, ?_⟩
  rw [vec_sq_sum_eq]
  rw [dot_sum_congr _ _ (fun i => s.mem (p i) / Real.sqrt (vec_sq_sum s p n))
    (fun i => s.mem (p i) / Real.sqrt (vec_sq_sum s p n)) n hat hat]
  rw [dot_sum_div, Real.mul_self_sqrt (le_of_lt hpos), ← hS]
  exact div_self (ne_of_gt hpos)

end Lemmas

/-! ## The dot product -/

/-- C1: for present vectors `a`, `b` (row or column, owning or view) with
`vec_len a = vec_len b = n > 0`, `vec_dot` reports error 0 and returns the sum
of `a[i] * b[i]` for `i = 0..n-1`, accumulated left to right from 0, where
`a[i]` and `b[i]` are the values `vec_get` reads. -/
theorem vec_dot_sum {α : Type} [Zero α] [Add α] [Mul α] (s : State α) (ha hb n : Nat)
    (hn : 0 < n) (hla : vec_len s (some ha) = n) (hlb : vec_len s (some hb) = n) :
    vec_dot s (some ha) (some hb)
      = (dot_sum (fun i => (vec_get s (some ha) i).1) (fun i => (vec_get s (some hb) i).1) n,
          tmErr.TM_OK) :=
  vec_dot_eq_dot_sum s ha hb n hn hla hlb

/-- Instances of C1: `dot((1,2,3),(4,5,6)) = 32` for an owning row against an
owning column and for a strided column view against an owning column, and
`dot((1,0,0),(0,1,0)) = 0`. -/
theorem vec_dot_sum_witness :
    (vec_dot (demo 1 3 3 tmType.TM_MAIN [1, 2, 3] [4, 5, 6] []) (some 0) (some 1)
        = (dot_sum (fun i => (vec_get (demo 1 3 3 tmType.TM_MAIN [1, 2, 3] [4, 5, 6] []) (some 0) i).1)
            (fun i => (vec_get (demo 1 3 3 tmType.TM_MAIN [1, 2, 3] [4, 5, 6] []) (some 1) i).1) 3,
            tmErr.TM_OK))
      ∧ vec_dot (demo 1 3 3 tmType.TM_MAIN [1, 2, 3] [4, 5, 6] []) (some 0) (some 1)
          = (32, tmErr.TM_OK)
      ∧ vec_dot (demo 3 1 2 tmType.TM_VIEW [1, 9, 2, 9, 3] [4, 5, 6] []) (some 0) (some 1)
          = (32, tmErr.TM_OK)
      ∧ vec_dot (demo 3 1 1 tmType.TM_MAIN [1, 0, 0] [0, 1, 0] []) (some 0) (some 1)
          = (0, tmErr.TM_OK) :=
  ⟨vec_dot_sum (demo 1 3 3 tmType.TM_MAIN [1, 2, 3] [4, 5, 6] []) 0 1 3
      (by decide) (by decide) (by decide),
    by decide, by decide, by decide⟩

/-- C2: on two contiguous vectors (`IS_PRIM` holds for both) of equal nonzero
length `n`, the generic loop returns the sum of the fast loop with error 0,
and `vec_dot` returns that same pair. -/
theorem vec_dot_paths_agree {α : Type} [Zero α] [Add α] [Mul α] (s : State α) (ha hb n : Nat)
    (hn : 0 < n) (hla : vec_len s (some ha) = n) (hlb : vec_len s (some hb) = n)
    (hpa : IS_PRIM (s.mat ha) = true) (hpb : IS_PRIM (s.mat hb) = true) :
    vec_dot_generic s (some ha) (some hb) n
        = (vec_dot_fast s (s.mat ha) (s.mat hb) n, tmErr.TM_OK)
      ∧ vec_dot s (some ha) (some hb)
        = (vec_dot_fast s (s.mat ha) (s.mat hb) n, tmErr.TM_OK) := by
  have hsum : dot_sum (fun i => (vec_get s (some ha) i).1) (fun i => (vec_get s (some hb) i).1) n
      = vec_dot_fast s (s.mat ha) (s.mat hb) n := by
    rw [vec_dot_fast_eq]
    apply dot_sum_congr
    · intro i hi
      exact vec_get_prim s ha i (hla ▸ hi) hpa
    · intro i hi
      exact vec_get_prim s hb i (hlb ▸ hi) hpb
  constructor
  · rw [← hsum]
    apply vec_dot_generic_eq
    intro i hi
    rw [vec_get_in_range s hb i (hlb ▸ hi)]
  · rw [← hsum]
    exact vec_dot_eq_dot_sum s ha hb n hn hla hlb

/-- Instance of C2: an owning 1x3 row `(1,2,3)` against an owning 3x1 column
`(4,5,6)`; both loops give 32. -/
theorem vec_dot_paths_agree_witness :
    vec_dot_generic (demo 1 3 3 tmType.TM_MAIN [1, 2, 3] [4, 5, 6] []) (some 0) (some 1) 3
        = (vec_dot_fast (demo 1 3 3 tmType.TM_MAIN [1, 2, 3] [4, 5, 6] [])
            ((demo 1 3 3 tmType.TM_MAIN [1, 2, 3] [4, 5, 6] []).mat 0)
            ((demo 1 3 3 tmType.TM_MAIN [1, 2, 3] [4, 5, 6] []).mat 1) 3, tmErr.TM_OK)
      ∧ vec_dot_fast (demo 1 3 3 tmType.TM_MAIN [1, 2, 3] [4, 5, 6] [])
            ((demo 1 3 3 tmType.TM_MAIN [1, 2, 3] [4, 5, 6] []).mat 0)
            ((demo 1 3 3 tmType.TM_MAIN [1, 2, 3] [4, 5, 6] []).mat 1) 3 = 32 :=
  ⟨(vec_dot_paths_agree (demo 1 3 3 tmType.TM_MAIN [1, 2, 3] [4, 5, 6] []) 0 1 3
      (by decide) (by decide) (by decide) (by decide) (by decide)).1,
    by decide⟩

/-! ## The cross product -/

/-- C3: when `dest`, `a`, `b` are present, `a` and `b` have length 3 and `dest`
already has length 3 (of any kind, with `cols ≤ width`), `vec_cross` returns 1
with error 0, leaves every matrix record (shape, kind, buffer) and the list of
released buffers as they were, and afterwards `dest[0] = a1*b2 - b1*a2`,
`dest[1] = a2*b0 - a0*b2`, `dest[2] = a0*b1 - b0*a1` for the operand values of
the state before the call. -/
theorem vec_cross_len3_dest {α : Type} [Zero α] [Mul α] [Sub α] (s : State α)
    (alloc : Option Nat) (r ha hb : Nat)
    (hla : vec_len s (some ha) = 3) (hlb : vec_len s (some hb) = 3)
    (hlr : vec_len s (some r) = 3) (hw : (s.mat r).cols ≤ (s.mat r).width) :
    (vec_cross s alloc (some r) (some ha) (some hb)).1 = 1
      ∧ (vec_cross s alloc (some r) (some ha) (some hb)).2.1 = tmErr.TM_OK
      ∧ (vec_cross s alloc (some r) (some ha) (some hb)).2.2.mat = s.mat
      ∧ (vec_cross s alloc (some r) (some ha) (some hb)).2.2.freed = s.freed
      ∧ vec_get (vec_cross s alloc (some r) (some ha) (some hb)).2.2 (some r) 0
          = ((vec_get s (some ha) 1).1 * (vec_get s (some hb) 2).1
              - (vec_get s (some hb) 1).1 * (vec_get s (some ha) 2).1, tmErr.TM_OK)
      ∧ vec_get (vec_cross s alloc (some r) (some ha) (some hb)).2.2 (some r) 1
          = ((vec_get s (some ha) 2).1 * (vec_get s (some hb) 0).1
              - (vec_get s (some ha) 0).1 * (vec_get s (some hb) 2).1, tmErr.TM_OK)
      ∧ vec_get (vec_cross s alloc (some r) (some ha) (some hb)).2.2 (some r) 2
          = ((vec_get s (some ha) 0).1 * (vec_get s (some hb) 1).1
              - (vec_get s (some hb) 0).1 * (vec_get s (some ha) 1).1, tmErr.TM_OK) := by
  rw [vec_cross_eq_write s alloc r ha hb hla hlb hlr,
    vec_cross_write_len3 s r (some ha) (some hb) hlr]
  have hg := vec_get_after_stores s r (cross_val s (some ha) (some hb)).1
    (cross_val s (some ha) (some hb)).2.1 (cross_val s (some ha) (some hb)).2.2 hlr hw
  exact ⟨rfl, rfl, rfl, rfl, hg.1, hg.2.1, hg.2.2⟩

/-- Instance of C3: `cross((1,0,0),(0,1,0)) = (0,0,1)` into an owning 3x1
destination, and the same into a 1x3 destination that is a view. -/
theorem vec_cross_len3_dest_witness :
    (vec_cross (demo 3 1 1 tmType.TM_MAIN [1, 0, 0] [0, 1, 0] [7, 7, 7]) none
        (some 2) (some 0) (some 1)).1 = 1
      ∧ vec_get (vec_cross (demo 3 1 1 tmType.TM_MAIN [1, 0, 0] [0, 1, 0] [7, 7, 7]) none
          (some 2) (some 0) (some 1)).2.2 (some 2) 2
          = ((vec_get (demo 3 1 1 tmType.TM_MAIN [1, 0, 0] [0, 1, 0] [7, 7, 7]) (some 0) 0).1
              * (vec_get (demo 3 1 1 tmType.TM_MAIN [1, 0, 0] [0, 1, 0] [7, 7, 7]) (some 1) 1).1
              - (vec_get (demo 3 1 1 tmType.TM_MAIN [1, 0, 0] [0, 1, 0] [7, 7, 7]) (some 1) 0).1
              * (vec_get (demo 3 1 1 tmType.TM_MAIN [1, 0, 0] [0, 1, 0] [7, 7, 7]) (some 0) 1).1,
              tmErr.TM_OK)
      ∧ ((vec_get (vec_cross (demo 3 1 1 tmType.TM_MAIN [1, 0, 0] [0, 1, 0] [7, 7, 7]) none
          (some 2) (some 0) (some 1)).2.2 (some 2) 0).1,
         (vec_get (vec_cross (demo 3 1 1 tmType.TM_MAIN [1, 0, 0] [0, 1, 0] [7, 7, 7]) none
          (some 2) (some 0) (some 1)).2.2 (some 2) 1).1,
         (vec_get (vec_cross (demo 3 1 1 tmType.TM_MAIN [1, 0, 0] [0, 1, 0] [7, 7, 7]) none
          (some 2) (some 0) (some 1)).2.2 (some 2) 2).1) = (0, 0, 1)
      ∧ ((vec_get (vec_cross (demo 1 3 5 tmType.TM_VIEW [7, 7, 7] [1, 0, 0] [0, 1, 0]) none
          (some 0) (some 1) (some 2)).2.2 (some 0) 0).1,
         (vec_get (vec_cross (demo 1 3 5 tmType.TM_VIEW [7, 7, 7] [1, 0, 0] [0, 1, 0]) none
          (some 0) (some 1) (some 2)).2.2 (some 0) 1).1,
         (vec_get (vec_cross (demo 1 3 5 tmType.TM_VIEW [7, 7, 7] [1, 0, 0] [0, 1, 0]) none
          (some 0) (some 1) (some 2)).2.2 (some 0) 2).1) = (0, 0, 1) :=
  ⟨(vec_cross_len3_dest (demo 3 1 1 tmType.TM_MAIN [1, 0, 0] [0, 1, 0] [7, 7, 7]) none 2 0 1
      (by decide) (by decide) (by decide) (by decide)).1,
    (vec_cross_len3_dest (demo 3 1 1 tmType.TM_MAIN [1, 0, 0] [0, 1, 0] [7, 7, 7]) none 2 0 1
      (by decide) (by decide) (by decide) (by decide)).2.2.2.2.2.2,
    by decide, by decide⟩

/-- C4, evaluated on the code: with an owning 2x2 destination (capacity 4) and
operands `(1,0,0)`, `(0,1,0)`, `vec_cross` returns 0 with `TM_ERR_NOT_VEC` and
the destination stays 2x2; with an owning 1x4 destination it returns 1 with
error 0, writes `(0,0,1)` into the first three elements, and the destination
stays 1x4. -/
theorem vec_cross_capacity_keeps_shape :
    ((vec_cross (demo 2 2 2 tmType.TM_MAIN [7, 7, 7, 7] [1, 0, 0] [0, 1, 0]) (some 30)
        (some 0) (some 1) (some 2)).1 = 0
      ∧ (vec_cross (demo 2 2 2 tmType.TM_MAIN [7, 7, 7, 7] [1, 0, 0] [0, 1, 0]) (some 30)
        (some 0) (some 1) (some 2)).2.1 = tmErr.TM_ERR_NOT_VEC
      ∧ (vec_cross (demo 2 2 2 tmType.TM_MAIN [7, 7, 7, 7] [1, 0, 0] [0, 1, 0]) (some 30)
        (some 0) (some 1) (some 2)).2.2.mat 0 = ⟨0, 2, 2, 2, tmType.TM_MAIN⟩)
      ∧ ((vec_cross (demo 1 4 4 tmType.TM_MAIN [7, 7, 7, 7] [1, 0, 0] [0, 1, 0]) (some 30)
        (some 0) (some 1) (some 2)).1 = 1
      ∧ (vec_cross (demo 1 4 4 tmType.TM_MAIN [7, 7, 7, 7] [1, 0, 0] [0, 1, 0]) (some 30)
        (some 0) (some 1) (some 2)).2.1 = tmErr.TM_OK
      ∧ (vec_cross (demo 1 4 4 tmType.TM_MAIN [7, 7, 7, 7] [1, 0, 0] [0, 1, 0]) (some 30)
        (some 0) (some 1) (some 2)).2.2.mat 0 = ⟨0, 1, 4, 4, tmType.TM_MAIN⟩
      ∧ (List.range 4).map (vec_cross (demo 1 4 4 tmType.TM_MAIN [7, 7, 7, 7] [1, 0, 0] [0, 1, 0])
        (some 30) (some 0) (some 1) (some 2)).2.2.mem = [0, 0, 1, 7]) := by
  decide

/-- C5: for an owning destination with `vec_len dest ≠ 3` and
`rows * cols < 3`, operands of length 3 and a successful allocation at `p`,
`vec_cross` returns 1 with error 0; the destination record becomes
`data = p`, 3 rows, 1 column, stride 1, still owning; its previous buffer is
the one released; no other record changes; and the three components of the
product of the operand values before the call are stored in it. -/
theorem vec_cross_realloc {α : Type} [Zero α] [Mul α] [Sub α] (s : State α)
    (p r ha hb : Nat)
    (hla : vec_len s (some ha) = 3) (hlb : vec_len s (some hb) = 3)
    (hlr : vec_len s (some r) ≠ 3) (hmain : (s.mat r).type = tmType.TM_MAIN)
    (hcap : (s.mat r).rows * (s.mat r).cols < 3) :
    (vec_cross s (some p) (some r) (some ha) (some hb)).1 = 1
      ∧ (vec_cross s (some p) (some r) (some ha) (some hb)).2.1 = tmErr.TM_OK
      ∧ (vec_cross s (some p) (some r) (some ha) (some hb)).2.2.mat r
          = ⟨p, 3, 1, 1, tmType.TM_MAIN⟩
      ∧ (∀ h, h ≠ r →
          (vec_cross s (some p) (some r) (some ha) (some hb)).2.2.mat h = s.mat h)
      ∧ (vec_cross s (some p) (some r) (some ha) (some hb)).2.2.freed
          = (s.mat r).data :: s.freed
      ∧ vec_get (vec_cross s (some p) (some r) (some ha) (some hb)).2.2 (some r) 0
          = ((vec_get s (some ha) 1).1 * (vec_get s (some hb) 2).1
              - (vec_get s (some hb) 1).1 * (vec_get s (some ha) 2).1, tmErr.TM_OK)
      ∧ vec_get (vec_cross s (some p) (some r) (some ha) (some hb)).2.2 (some r) 1
          = ((vec_get s (some ha) 2).1 * (vec_get s (some hb) 0).1
              - (vec_get s (some ha) 0).1 * (vec_get s (some hb) 2).1, tmErr.TM_OK)
      ∧ vec_get (vec_cross s (some p) (some r) (some ha) (some hb)).2.2 (some r) 2
          = ((vec_get s (some ha) 0).1 * (vec_get s (some hb) 1).1
              - (vec_get s (some hb) 0).1 * (vec_get s (some ha) 1).1, tmErr.TM_OK) := by
  have hna : ha ≠ r := fun h => hlr (h ▸ hla)
  have hnb : hb ≠ r := fun h => hlr (h ▸ hlb)
  have hstep : vec_cross s (some p) (some r) (some ha) (some hb)
      = vec_cross_write (vec_cross_install s r p) (some r) (some ha) (some hb) tmErr.TM_OK := by
    simp [vec_cross, hla, hlb, hlr, hmain, hcap]
  have hl3 := vec_len_install s r p
  have hw : ((vec_cross_install s r p).mat r).cols ≤ ((vec_cross_install s r p).mat r).width := by
    simp [vec_cross_install]
  rw [hstep, vec_cross_write_len3 _ r (some ha) (some hb) hl3,
    cross_val_install s r p ha hb hna hnb]
  have hg := vec_get_after_stores (vec_cross_install s r p) r (cross_val s (some ha) (some hb)).1
    (cross_val s (some ha) (some hb)).2.1 (cross_val s (some ha) (some hb)).2.2 hl3 hw
  refine ⟨rfl, rfl, ?_, ?_, rfl, hg.1, hg.2.1, hg.2.2⟩
  · show (vec_cross_install s r p).mat r = _
    simp [vec_cross_install, hmain]
  · intro h hne
    show (vec_cross_install s r p).mat h = _
    simp [vec_cross_install, hne]

/-- Instance of C5: an owning 1x1 destination with buffer at address 0, a
new buffer at address 30, operands `(1,0,0)` and `(0,1,0)`: the destination
becomes the 3x1 column `(0,0,1)` at address 30. -/
theorem vec_cross_realloc_witness :
    (vec_cross (demo 1 1 1 tmType.TM_MAIN [7] [1, 0, 0] [0, 1, 0]) (some 30)
        (some 0) (some 1) (some 2)).2.2.mat 0 = ⟨30, 3, 1, 1, tmType.TM_MAIN⟩
      ∧ (List.range 3).map (fun k => (vec_get (vec_cross
          (demo 1 1 1 tmType.TM_MAIN [7] [1, 0, 0] [0, 1, 0]) (some 30)
          (some 0) (some 1) (some 2)).2.2 (some 0) k).1) = [0, 0, 1] :=
  ⟨(vec_cross_realloc (demo 1 1 1 tmType.TM_MAIN [7] [1, 0, 0] [0, 1, 0]) 30 0 1 2
      (by decide) (by decide) (by decide) (by decide) (by decide)).2.2.1,
    by decide⟩

/-- C6: for an owning destination with `vec_len dest ≠ 3` and
`rows * cols < 3` and operands of length 3, when the allocation fails
`vec_cross` returns 0 with `TM_ERR_NO_MEMORY` and the state is the state
before the call: no record, no stored element and no release. -/
theorem vec_cross_no_memory {α : Type} [Zero α] [Mul α] [Sub α] (s : State α)
    (r ha hb : Nat)
    (hla : vec_len s (some ha) = 3) (hlb : vec_len s (some hb) = 3)
    (hlr : vec_len s (some r) ≠ 3) (hmain : (s.mat r).type = tmType.TM_MAIN)
    (hcap : (s.mat r).rows * (s.mat r).cols < 3) :
    vec_cross s none (some r) (some ha) (some hb) = (0, tmErr.TM_ERR_NO_MEMORY, s) := by
  simp [vec_cross, hla, hlb, hlr, hmain, hcap, lnot]

/-- Instance of C6: an owning 1x1 destination and a failing allocation. -/
theorem vec_cross_no_memory_witness :
    vec_cross (demo 1 1 1 tmType.TM_MAIN [7] [1, 0, 0] [0, 1, 0]) none (some 0) (some 1) (some 2)
      = (0, tmErr.TM_ERR_NO_MEMORY, demo 1 1 1 tmType.TM_MAIN [7] [1, 0, 0] [0, 1, 0]) :=
  vec_cross_no_memory (demo 1 1 1 tmType.TM_MAIN [7] [1, 0, 0] [0, 1, 0]) 0 1 2
    (by decide) (by decide) (by decide) (by decide) (by decide)

/-- C7: for a present destination that is not owning with `vec_len dest ≠ 3`
and operands of length 3, `vec_cross` returns 0 with `TM_ERR_NOT_MAIN` and the
state is the state before the call (no shape change, no component write),
whatever the allocator would answer. -/
theorem vec_cross_not_main {α : Type} [Zero α] [Mul α] [Sub α] (s : State α)
    (alloc : Option Nat) (r ha hb : Nat)
    (hla : vec_len s (some ha) = 3) (hlb : vec_len s (some hb) = 3)
    (hlr : vec_len s (some r) ≠ 3) (hview : (s.mat r).type ≠ tmType.TM_MAIN) :
    vec_cross s alloc (some r) (some ha) (some hb) = (0, tmErr.TM_ERR_NOT_MAIN, s) := by
  have hstep : vec_cross s alloc (some r) (some ha) (some hb)
      = vec_cross_write s (some r) (some ha) (some hb) tmErr.TM_ERR_NOT_MAIN := by
    simp [vec_cross, hla, hlb, hlr, hview]
  rw [hstep]
  exact vec_cross_write_err s _ _ _ _ (by decide)

/-- Instance of C7: a 2x1 view as destination. -/
theorem vec_cross_not_main_witness :
    vec_cross (demo 2 1 4 tmType.TM_VIEW [7, 7, 7, 7, 7] [1, 0, 0] [0, 1, 0]) (some 30)
        (some 0) (some 1) (some 2)
      = (0, tmErr.TM_ERR_NOT_MAIN, demo 2 1 4 tmType.TM_VIEW [7, 7, 7, 7, 7] [1, 0, 0] [0, 1, 0]) :=
  vec_cross_not_main (demo 2 1 4 tmType.TM_VIEW [7, 7, 7, 7, 7] [1, 0, 0] [0, 1, 0]) (some 30)
    0 1 2 (by decide) (by decide) (by decide) (by decide)

/-- C8: `vec_cross` returns 0 with `TM_ERR_EMPTY_ARGS` and the state unchanged
when any of `dest`, `a`, `b` is absent; otherwise, when `vec_len a ≠ 3` or
`vec_len b ≠ 3`, it returns 0 with `TM_ERR_NOT_DEF` and the state unchanged,
whatever the destination is; and on every input the value returned is 1
exactly when the error code reported is 0. -/
theorem vec_cross_arg_errors {α : Type} [Zero α] [Mul α] [Sub α] (s : State α)
    (alloc : Option Nat) :
    (∀ res a b : Option Nat, res = none ∨ a = none ∨ b = none →
        vec_cross s alloc res a b = (0, tmErr.TM_ERR_EMPTY_ARGS, s))
      ∧ (∀ r ha hb : Nat, vec_len s (some ha) ≠ 3 ∨ vec_len s (some hb) ≠ 3 →
        vec_cross s alloc (some r) (some ha) (some hb) = (0, tmErr.TM_ERR_NOT_DEF, s))
      ∧ (∀ res a b : Option Nat,
        ((vec_cross s alloc res a b).1 = 1 ↔ (vec_cross s alloc res a b).2.1 = tmErr.TM_OK)) := by
  refine ⟨?_, ?_, ?_⟩
  · intro res a b h
    rcases h with h | h | h
    · subst h
      rfl
    · subst h
      cases res <;> rfl
    · subst h
      cases res <;> cases a <;> rfl
  · intro r ha hb h
    have hn : ¬ (vec_len s (some ha) = 3 ∧ vec_len s (some hb) = 3) := by
      intro hc
      rcases h with h | h
      · exact h hc.1
      · exact h hc.2
    simp [vec_cross, hn, lnot]
  · intro res a b
    rw [vec_cross_ret]
    unfold lnot
    by_cases he : (vec_cross s alloc res a b).2.1 = tmErr.TM_OK <;> simp [he]

/-- Instance of C8: an absent operand gives `TM_ERR_EMPTY_ARGS`; a 2x2 first
operand gives `TM_ERR_NOT_DEF`; the state is returned as it was. -/
theorem vec_cross_arg_errors_witness :
    vec_cross (demo 2 2 2 tmType.TM_MAIN [1, 2, 3, 4] [0, 1, 0] [7, 7, 7]) (some 30)
        (some 2) none (some 1)
      = (0, tmErr.TM_ERR_EMPTY_ARGS, demo 2 2 2 tmType.TM_MAIN [1, 2, 3, 4] [0, 1, 0] [7, 7, 7])
    ∧ vec_cross (demo 2 2 2 tmType.TM_MAIN [1, 2, 3, 4] [0, 1, 0] [7, 7, 7]) (some 30)
        (some 2) (some 0) (some 1)
      = (0, tmErr.TM_ERR_NOT_DEF, demo 2 2 2 tmType.TM_MAIN [1, 2, 3, 4] [0, 1, 0] [7, 7, 7]) :=
  ⟨(vec_cross_arg_errors (demo 2 2 2 tmType.TM_MAIN [1, 2, 3, 4] [0, 1, 0] [7, 7, 7])
      (some 30)).1 (some 2) none (some 1) (Or.inr (Or.inl rfl)),
    (vec_cross_arg_errors (demo 2 2 2 tmType.TM_MAIN [1, 2, 3, 4] [0, 1, 0] [7, 7, 7])
      (some 30)).2.1 2 0 1 (Or.inl (by decide))⟩

/-- C9: over a commutative ring, for operands `a`, `b` of length 3 and
destinations `d1`, `d2` of length 3 (with `cols ≤ width`), the components
stored by `vec_cross(d1, a, b)` are the negations of the components stored by
`vec_cross(d2, b, a)`, both calls made from the same state. -/
theorem vec_cross_anticomm {α : Type} [CommRing α] (s : State α)
    (alloc1 alloc2 : Option Nat) (d1 d2 ha hb : Nat)
    (hla : vec_len s (some ha) = 3) (hlb : vec_len s (some hb) = 3)
    (hl1 : vec_len s (some d1) = 3) (hl2 : vec_len s (some d2) = 3)
    (hw1 : (s.mat d1).cols ≤ (s.mat d1).width) (hw2 : (s.mat d2).cols ≤ (s.mat d2).width)
    (k : Nat) (hk : k < 3) :
    (vec_get (vec_cross s alloc1 (some d1) (some ha) (some hb)).2.2 (some d1) k).1
      = - (vec_get (vec_cross s alloc2 (some d2) (some hb) (some ha)).2.2 (some d2) k).1 := by
  rw [vec_cross_eq_write s alloc1 d1 ha hb hla hlb hl1,
    vec_cross_eq_write s alloc2 d2 hb ha hlb hla hl2,
    vec_cross_write_len3 s d1 (some ha) (some hb) hl1,
    vec_cross_write_len3 s d2 (some hb) (some ha) hl2]
  have h1 := vec_get_after_stores s d1 (cross_val s (some ha) (some hb)).1
    (cross_val s (some ha) (some hb)).2.1 (cross_val s (some ha) (some hb)).2.2 hl1 hw1
  have h2 := vec_get_after_stores s d2 (cross_val s (some hb) (some ha)).1
    (cross_val s (some hb) (some ha)).2.1 (cross_val s (some hb) (some ha)).2.2 hl2 hw2
  have hk3 : k = 0 ∨ k = 1 ∨ k = 2 := by omega
  rcases hk3 with h | h | h <;> subst h
  · rw [h1.1, h2.1]
    simp only [cross_val]
    ring
  · rw [h1.2.1, h2.2.1]
    simp only [cross_val]
    ring
  · rw [h1.2.2, h2.2.2]
    simp only [cross_val]
    ring

/-- Instance of C9: `a = (1,2,3)`, `b = (4,5,6)`, destination record 0 (a 3x1
column) for both calls: `cross(a,b) = (-3,6,-3)` and `cross(b,a) = (3,-6,3)`. -/
theorem vec_cross_anticomm_witness :
    (vec_get (vec_cross (demo 3 1 1 tmType.TM_MAIN [7, 7, 7] [1, 2, 3] [4, 5, 6]) none
        (some 0) (some 1) (some 2)).2.2 (some 0) 1).1
      = - (vec_get (vec_cross (demo 3 1 1 tmType.TM_MAIN [7, 7, 7] [1, 2, 3] [4, 5, 6]) none
        (some 0) (some 2) (some 1)).2.2 (some 0) 1).1
    ∧ (List.range 3).map (fun k => (vec_get (vec_cross
        (demo 3 1 1 tmType.TM_MAIN [7, 7, 7] [1, 2, 3] [4, 5, 6]) none
        (some 0) (some 1) (some 2)).2.2 (some 0) k).1) = [-3, 6, -3]
    ∧ (List.range 3).map (fun k => (vec_get (vec_cross
        (demo 3 1 1 tmType.TM_MAIN [7, 7, 7] [1, 2, 3] [4, 5, 6]) none
        (some 0) (some 2) (some 1)).2.2 (some 0) k).1) = [3, -6, 3] :=
  ⟨vec_cross_anticomm (demo 3 1 1 tmType.TM_MAIN [7, 7, 7] [1, 2, 3] [4, 5, 6]) none none
      0 0 1 2 (by decide) (by decide) (by decide) (by decide) (by decide) (by decide)
      1 (by decide),
    by decide, by decide⟩

/-! ## Commutativity of the dot product -/

/-- C10: for a commutative multiplication, `vec_dot(a, b)` and `vec_dot(b, a)`
return the same value and the same error code for every pair of handles,
absent or present, vector or not, owning or view. -/
theorem vec_dot_comm {α : Type} [Zero α] [Add α] [CommMagma α] (s : State α)
    (a b : Option Nat) :
    vec_dot s a b = vec_dot s b a := by
  by_cases hz : vec_len s a ≠ 0 ∧ vec_len s b ≠ 0
  · by_cases he : vec_len s a = vec_len s b
    · cases a with
      | none => exact absurd rfl hz.1
      | some ha =>
        cases b with
        | none => exact absurd rfl hz.2
        | some hb =>
          have hn : 0 < vec_len s (some ha) := Nat.pos_of_ne_zero hz.1
          rw [vec_dot_eq_dot_sum s ha hb _ hn rfl he.symm,
            vec_dot_eq_dot_sum s hb ha _ hn he.symm rfl, dot_sum_comm]
    · have he2 : ¬ vec_len s b = vec_len s a := fun h => he h.symm
      simp only [vec_dot, hz, he, he2, and_self, if_true, if_false]
      simp [hz.1, hz.2]
  · have hz2 : ¬ (vec_len s b ≠ 0 ∧ vec_len s a ≠ 0) := fun h => hz ⟨h.2, h.1⟩
    simp only [vec_dot, hz, hz2, if_false]

/-! ## Error classification of the dot product -/

/-- C11: `vec_dot` reports `TM_ERR_NOT_VEC` with value 0 when `vec_len a = 0`
or `vec_len b = 0` (an absent handle and a matrix with neither `rows = 1` nor
`cols = 1` have length 0); otherwise, when the lengths differ, it reports
`TM_ERR_NOT_COMPAT` with value 0.  `vec_dot` has no store, so no operand is
modified. -/
theorem vec_dot_errors {α : Type} [Zero α] [Add α] [Mul α] (s : State α) :
    (∀ a b : Option Nat, vec_len s a = 0 ∨ vec_len s b = 0 →
        vec_dot s a b = (0, tmErr.TM_ERR_NOT_VEC))
      ∧ (∀ a b : Option Nat, vec_len s a ≠ 0 → vec_len s b ≠ 0 →
        vec_len s a ≠ vec_len s b → vec_dot s a b = (0, tmErr.TM_ERR_NOT_COMPAT))
      ∧ (∀ b : Option Nat, vec_dot s none b = (0, tmErr.TM_ERR_NOT_VEC)
        ∧ vec_dot s b none = (0, tmErr.TM_ERR_NOT_VEC))
      ∧ (∀ h : Nat, (s.mat h).cols ≠ 1 → (s.mat h).rows ≠ 1 → vec_len s (some h) = 0) := by
  have hnv : ∀ a b : Option Nat, vec_len s a = 0 ∨ vec_len s b = 0 →
      vec_dot s a b = (0, tmErr.TM_ERR_NOT_VEC) := by
    intro a b h
    have hn : ¬ (vec_len s a ≠ 0 ∧ vec_len s b ≠ 0) := by
      intro hc
      rcases h with h | h
      · exact hc.1 h
      · exact hc.2 h
    simp only [vec_dot, hn, if_false]
  refine ⟨hnv, ?_, ?_, ?_⟩
  · intro a b ha hb hab
    simp only [vec_dot, ha, hb, hab, ne_eq, not_false_eq_true, and_self, if_true, if_false]
  · intro b
    exact ⟨hnv none b (Or.inl rfl), hnv b none (Or.inr rfl)⟩
  · intro h hc hr
    simp [vec_len, hc, hr]

/-- Instance of C11: a 2x2 matrix against a 3x1 column gives `TM_ERR_NOT_VEC`,
a 1x2 row against a 3x1 column gives `TM_ERR_NOT_COMPAT`, both with value 0. -/
theorem vec_dot_errors_witness :
    vec_dot (demo 2 2 2 tmType.TM_MAIN [1, 2, 3, 4] [4, 5, 6] []) (some 0) (some 1)
        = (0, tmErr.TM_ERR_NOT_VEC)
      ∧ vec_dot (demo 1 2 2 tmType.TM_MAIN [1, 2] [4, 5, 6] []) (some 0) (some 1)
        = (0, tmErr.TM_ERR_NOT_COMPAT) :=
  ⟨(vec_dot_errors (demo 2 2 2 tmType.TM_MAIN [1, 2, 3, 4] [4, 5, 6] [])).1
      (some 0) (some 1) (Or.inl (by decide)),
    (vec_dot_errors (demo 1 2 2 tmType.TM_MAIN [1, 2] [4, 5, 6] [])).2.1
      (some 0) (some 1) (by decide) (by decide) (by decide)⟩

/-! ## Element access -/

/-- C12: on a present vector and an index `k < vec_len m`, `vec_set(m, k, v)`
reports error 0 and a following `vec_get(m, k)` reports error 0 and returns
`v`. -/
theorem vec_set_get {α : Type} [Zero α] (s : State α) (h k : Nat) (v : α)
    (hk : k < vec_len s (some h)) :
    (vec_set s (some h) k v).2 = tmErr.TM_OK
      ∧ vec_get (vec_set s (some h) k v).1 (some h) k = (v, tmErr.TM_OK) := by
  rw [vec_set_in_range s h k v hk]
  refine ⟨rfl, ?_⟩
  rw [vec_get_eq_addr _ h k (by show k < vec_len s (some h); exact hk)]
  simp [store]

/-- Instance of C12: writing 9 at index 1 of a strided 3x1 column view and
reading it back. -/
theorem vec_set_get_witness :
    (vec_set (demo 3 1 2 tmType.TM_VIEW [1, 0, 2, 0, 3] [] []) (some 0) 1 9).2 = tmErr.TM_OK
      ∧ vec_get (vec_set (demo 3 1 2 tmType.TM_VIEW [1, 0, 2, 0, 3] [] []) (some 0) 1 9).1
          (some 0) 1 = (9, tmErr.TM_OK) :=
  vec_set_get (demo 3 1 2 tmType.TM_VIEW [1, 0, 2, 0, 3] [] []) 0 1 9 (by decide)

/-- C13: `vec_get` and `vec_set` report the same error code on the same
arguments: `TM_ERR_EMPTY_ARGS` for an absent matrix, `TM_ERR_NOT_VEC` for a
present matrix with `cols ≠ 1` and `rows ≠ 1`, `TM_ERR_WRONG_SIZE` for a row or
column vector and an index at or beyond its length, 0 otherwise.  On each
failure `vec_get` returns 0 and `vec_set` returns the state it was given. -/
theorem vec_get_set_errors {α : Type} [Zero α] (s : State α) (k : Nat) (v : α) :
    vec_get s none k = (0, tmErr.TM_ERR_EMPTY_ARGS)
      ∧ vec_set s none k v = (s, tmErr.TM_ERR_EMPTY_ARGS)
      ∧ (∀ h : Nat, (s.mat h).cols ≠ 1 → (s.mat h).rows ≠ 1 →
          vec_get s (some h) k = (0, tmErr.TM_ERR_NOT_VEC)
          ∧ vec_set s (some h) k v = (s, tmErr.TM_ERR_NOT_VEC))
      ∧ (∀ h : Nat, (s.mat h).cols = 1 ∨ (s.mat h).rows = 1 → vec_len s (some h) ≤ k →
          vec_get s (some h) k = (0, tmErr.TM_ERR_WRONG_SIZE)
          ∧ vec_set s (some h) k v = (s, tmErr.TM_ERR_WRONG_SIZE))
      ∧ (∀ h : Nat, (s.mat h).cols = 1 ∨ (s.mat h).rows = 1 → k < vec_len s (some h) →
          (vec_get s (some h) k).2 = tmErr.TM_OK ∧ (vec_set s (some h) k v).2 = tmErr.TM_OK)
      ∧ (∀ m : Option Nat, (vec_set s m k v).2 = (vec_get s m k).2) := by
  refine ⟨rfl, rfl, ?_, ?_, ?_, ?_⟩
  · intro h hc hr
    simp [vec_get, vec_set, hc, hr]
  · intro h hv hk
    unfold vec_len at hk
    by_cases hc : (s.mat h).cols = 1
    · simp only [hc, if_true] at hk
      simp [vec_get, vec_set, hc, Nat.not_lt.mpr hk]
    · have hr : (s.mat h).rows = 1 := hv.resolve_left hc
      simp only [hc, hr, if_true, if_false] at hk
      simp [vec_get, vec_set, hc, hr, Nat.not_lt.mpr hk]
  · intro h _ hk
    rw [vec_get_in_range s h k hk, vec_set_in_range s h k v hk]
    exact ⟨rfl, rfl⟩
  · intro m
    cases m with
    | none => rfl
    | some h =>
      unfold vec_set vec_get
      by_cases hc : (s.mat h).cols = 1
      · by_cases hk : k < (s.mat h).rows <;> simp [hc, hk]
      · by_cases hr : (s.mat h).rows = 1
        · by_cases hk : k < (s.mat h).cols <;> simp [hc, hr, hk]
        · simp [hc, hr]

/-- Instance of C13: index 3 of a 3x1 column is out of range for both
accessors, and a 2x2 matrix is not a vector for both. -/
theorem vec_get_set_errors_witness :
    (vec_get (demo 3 1 1 tmType.TM_MAIN [1, 2, 3] [] []) (some 0) 3
        = (0, tmErr.TM_ERR_WRONG_SIZE)
      ∧ vec_set (demo 3 1 1 tmType.TM_MAIN [1, 2, 3] [] []) (some 0) 3 9
        = (demo 3 1 1 tmType.TM_MAIN [1, 2, 3] [] [], tmErr.TM_ERR_WRONG_SIZE))
    ∧ (vec_get (demo 2 2 2 tmType.TM_MAIN [1, 2, 3, 4] [] []) (some 0) 0
        = (0, tmErr.TM_ERR_NOT_VEC)
      ∧ vec_set (demo 2 2 2 tmType.TM_MAIN [1, 2, 3, 4] [] []) (some 0) 0 9
        = (demo 2 2 2 tmType.TM_MAIN [1, 2, 3, 4] [] [], tmErr.TM_ERR_NOT_VEC)) :=
  ⟨(vec_get_set_errors (demo 3 1 1 tmType.TM_MAIN [1, 2, 3] [] []) 3 9).2.2.2.1 0
      (Or.inl (by decide)) (by decide),
    (vec_get_set_errors (demo 2 2 2 tmType.TM_MAIN [1, 2, 3, 4] [] []) 0 9).2.2.1 0
      (by decide) (by decide)⟩

/-! ## Squared norm and normalization -/

/-- C14: `vec_norm2` reports `TM_ERR_EMPTY_ARGS` for an absent matrix and
`TM_ERR_NOT_VEC` for a present matrix with `cols ≠ 1` and `rows ≠ 1`, with value
0; for a row or column vector it reports error 0 and returns the sum of the
squares of its elements (the values `vec_get` reads, `vec_len` of them),
accumulated left to right from 0, which is 0 for a vector of length 0.
`vec_norm2` has no store, so the matrix is not modified. -/
theorem vec_norm2_sum {α : Type} [Zero α] [Add α] [Mul α] (s : State α) :
    vec_norm2 s none = (0, tmErr.TM_ERR_EMPTY_ARGS)
      ∧ (∀ h : Nat, (s.mat h).cols ≠ 1 → (s.mat h).rows ≠ 1 →
          vec_norm2 s (some h) = (0, tmErr.TM_ERR_NOT_VEC))
      ∧ (∀ h : Nat, (s.mat h).cols = 1 ∨ (s.mat h).rows = 1 →
          vec_norm2 s (some h)
            = (dot_sum (fun i => (vec_get s (some h) i).1) (fun i => (vec_get s (some h) i).1)
                (vec_len s (some h)), tmErr.TM_OK))
      ∧ (∀ h : Nat, (s.mat h).cols = 1 ∨ (s.mat h).rows = 1 → vec_len s (some h) = 0 →
          vec_norm2 s (some h) = (0, tmErr.TM_OK)) := by
  refine ⟨rfl, ?_, ?_, ?_⟩
  · intro h hc hr
    simp [vec_norm2, hc, hr]
  · intro h hv
    exact vec_norm2_eq_get s h hv
  · intro h hv h0
    rw [vec_norm2_eq_get s h hv, h0]
    rfl

/-- Instance of C14: `normSquared((3,4)) = 25` for an owning 1x2 row and for a
strided 2x1 column view, and a 2x2 matrix gives `TM_ERR_NOT_VEC`. -/
theorem vec_norm2_sum_witness :
    vec_norm2 (demo 1 2 2 tmType.TM_MAIN [3, 4] [] []) (some 0)
        = (dot_sum (fun i => (vec_get (demo 1 2 2 tmType.TM_MAIN [3, 4] [] []) (some 0) i).1)
            (fun i => (vec_get (demo 1 2 2 tmType.TM_MAIN [3, 4] [] []) (some 0) i).1)
            (vec_len (demo 1 2 2 tmType.TM_MAIN [3, 4] [] []) (some 0)), tmErr.TM_OK)
      ∧ vec_norm2 (demo 1 2 2 tmType.TM_MAIN [3, 4] [] []) (some 0) = (25, tmErr.TM_OK)
      ∧ vec_norm2 (demo 2 1 3 tmType.TM_VIEW [3, 9, 9, 4] [] []) (some 0) = (25, tmErr.TM_OK)
      ∧ vec_norm2 (demo 2 2 2 tmType.TM_MAIN [1, 2, 3, 4] [] []) (some 0)
        = (0, tmErr.TM_ERR_NOT_VEC) :=
  ⟨(vec_norm2_sum (demo 1 2 2 tmType.TM_MAIN [3, 4] [] [])).2.2.1 0 (Or.inr (by decide)),
    by decide, by decide,
    (vec_norm2_sum (demo 2 2 2 tmType.TM_MAIN [1, 2, 3, 4] [] [])).2.1 0
      (by decide) (by decide)⟩

/-- C15: on a present row or column vector all of whose elements are 0, the
squared norm is 0 and `vec_normalize` returns 1 with error 0 and the state it
was given: no element is divided, no record changes.  This holds in every
linearly ordered ring, for any division and any `sqrt`. -/
theorem vec_normalize_zero {α : Type} [LinearOrderedRing α] [Div α] (sqrt : α → α)
    (s : State α) (h : Nat) (hv : (s.mat h).cols = 1 ∨ (s.mat h).rows = 1)
    (hz : ∀ i, i < vec_len s (some h) → (vec_get s (some h) i).1 = 0) :
    vec_norm2 s (some h) = (0, tmErr.TM_OK)
      ∧ vec_normalize sqrt s (some h) = (1, tmErr.TM_OK, s) := by
  have hsum : vec_sq_sum s (vec_addr (s.mat h)) (vec_len s (some h)) = 0 := by
    rw [vec_sq_sum_eq]
    apply dot_sum_all_zero _ _ (add_zero 0)
    intro i hi
    have := hz i hi
    rw [vec_get_eq_addr s h i hi] at this
    exact this
  constructor
  · rw [vec_norm2_vec s h hv, hsum]
  · rw [vec_normalize_vec sqrt s h hv]
    unfold vec_normalize_axis
    rw [hsum, if_neg (lt_irrefl 0)]

/-- Instance of C15: the 1x3 zero row, with the identity as `sqrt`. -/
theorem vec_normalize_zero_witness :
    vec_normalize (fun x => x) (demo 1 3 3 tmType.TM_MAIN [0, 0, 0] [] []) (some 0)
      = (1, tmErr.TM_OK, demo 1 3 3 tmType.TM_MAIN [0, 0, 0] [] []) :=
  (vec_normalize_zero (fun x => x) (demo 1 3 3 tmType.TM_MAIN [0, 0, 0] [] []) 0
    (Or.inr (by decide)) (by decide)).2

/-- Exact arithmetic only: over the real numbers with the real square root,
on a present row or column vector with `cols ≤ width` and at least one nonzero
element, `vec_normalize` returns 1 with error 0, keeps every record, replaces
each element `v[i]` by `v[i] / sqrt(normSquared(v))`, and the squared norm of
the result is 1.  This is the idealised reading of normalization; it says
nothing about an element type with rounding, underflow or overflow, where the
sum of squares of a nonzero vector can come out as 0 or as infinity. -/
theorem vec_normalize_unit (s : State ℝ) (h : Nat)
    (hv : (s.mat h).cols = 1 ∨ (s.mat h).rows = 1)
    (hw : (s.mat h).cols ≤ (s.mat h).width)
    (hnz : ∃ i, i < vec_len s (some h) ∧ (vec_get s (some h) i).1 ≠ 0) :
    (vec_normalize Real.sqrt s (some h)).1 = 1
      ∧ (vec_normalize Real.sqrt s (some h)).2.1 = tmErr.TM_OK
      ∧ (vec_normalize Real.sqrt s (some h)).2.2.mat = s.mat
      ∧ (∀ i, i < vec_len s (some h) →
          vec_get (vec_normalize Real.sqrt s (some h)).2.2 (some h) i
            = ((vec_get s (some h) i).1 / Real.sqrt (vec_norm2 s (some h)).1, tmErr.TM_OK))
      ∧ vec_norm2 (vec_normalize Real.sqrt s (some h)).2.2 (some h) = (1, tmErr.TM_OK) := by
  have hinj : ∀ i j, i ≠ j → vec_addr (s.mat h) i ≠ vec_addr (s.mat h) j :=
    fun i j hij => vec_addr_ne (s.mat h) hw i j hij
  have hnz1 : ∃ i, i < vec_len s (some h) ∧ s.mem (vec_addr (s.mat h) i) ≠ 0 := by
    obtain ⟨i, hi, hne⟩ := hnz
    rw [vec_get_eq_addr s h i hi] at hne
    exact ⟨i, hi, hne⟩
  obtain ⟨hmat, _, hat, hone⟩ :=
    vec_normalize_axis_real s (vec_addr (s.mat h)) (vec_len s (some h)) hinj hnz1
  rw [vec_normalize_vec Real.sqrt s h hv, vec_norm2_vec s h hv]
  have hlen : vec_len (vec_normalize_axis Real.sqrt s (vec_addr (s.mat h)) (vec_len s (some h)))
      (some h) = vec_len s (some h) := vec_len_mat_eq s _ hmat (some h)
  refine ⟨rfl, rfl, hmat, ?_, ?_⟩
  · intro i hi
    rw [vec_get_eq_addr _ h i (by rw [hlen]; exact hi), vec_get_eq_addr s h i hi, hmat]
    exact congrArg (fun x => (x, tmErr.TM_OK)) (hat i hi)
  · rw [vec_norm2_vec _ h (by rw [hmat]; exact hv), hlen, hmat, hone]

/-- The exact-arithmetic statement at the owning 1x2 row `(3,4)` over the
reals. -/
theorem vec_normalize_unit_witness :
    vec_norm2 (vec_normalize Real.sqrt
        (mapState (fun z : Int => (z : ℝ)) (demo 1 2 2 tmType.TM_MAIN [3, 4] [] []))
        (some 0)).2.2 (some 0) = (1, tmErr.TM_OK) :=
  (vec_normalize_unit (mapState (fun z : Int => (z : ℝ)) (demo 1 2 2 tmType.TM_MAIN [3, 4] [] []))
    0 (Or.inr (by decide)) (by decide)
    ⟨0, by decide, by simp [vec_get, mapState, demo, tm_at]⟩).2.2.2.2

/-! ## Shape classification -/

/-- C17: `vec_len` returns 0 for an absent matrix; for a present one it
returns `rows` if `cols = 1`, else `cols` if `rows = 1`, else 0.  So it is 0
for every matrix with `rows > 1` and `cols > 1`, and 1 for a 1x1 matrix. -/
theorem vec_len_cases {α : Type} (s : State α) :
    vec_len s none = 0
      ∧ (∀ h : Nat, (s.mat h).cols = 1 → vec_len s (some h) = (s.mat h).rows)
      ∧ (∀ h : Nat, (s.mat h).cols ≠ 1 → (s.mat h).rows = 1 →
          vec_len s (some h) = (s.mat h).cols)
      ∧ (∀ h : Nat, (s.mat h).cols ≠ 1 → (s.mat h).rows ≠ 1 → vec_len s (some h) = 0)
      ∧ (∀ h : Nat, 1 < (s.mat h).rows → 1 < (s.mat h).cols → vec_len s (some h) = 0)
      ∧ (∀ h : Nat, (s.mat h).rows = 1 → (s.mat h).cols = 1 → vec_len s (some h) = 1) := by
  refine ⟨rfl, ?_, ?_, ?_, ?_, ?_⟩
  · intro h hc
    simp [vec_len, hc]
  · intro h hc hr
    simp [vec_len, hc, hr]
  · intro h hc hr
    simp [vec_len, hc, hr]
  · intro h hr hc
    have hc1 : (s.mat h).cols ≠ 1 := by omega
    have hr1 : (s.mat h).rows ≠ 1 := by omega
    simp [vec_len, hc1, hr1]
  · intro h hr hc
    simp [vec_len, hc, hr]

/-- Instance of C17: a 4x1 column has length 4, a 1x2 row length 2, a 2x2
matrix length 0, a 1x1 matrix length 1. -/
theorem vec_len_cases_witness :
    vec_len (demo 4 1 1 tmType.TM_MAIN [] [] []) (some 0) = 4
      ∧ vec_len (demo 1 2 2 tmType.TM_MAIN [] [] []) (some 0) = 2
      ∧ vec_len (demo 2 2 2 tmType.TM_MAIN [] [] []) (some 0) = 0
      ∧ vec_len (demo 1 1 1 tmType.TM_MAIN [] [] []) (some 0) = 1 :=
  ⟨(vec_len_cases (demo 4 1 1 tmType.TM_MAIN [] [] [])).2.1 0 (by decide),
    (vec_len_cases (demo 1 2 2 tmType.TM_MAIN [] [] [])).2.2.1 0 (by decide) (by decide),
    (vec_len_cases (demo 2 2 2 tmType.TM_MAIN [] [] [])).2.2.2.2.1 0 (by decide) (by decide),
    (vec_len_cases (demo 1 1 1 tmType.TM_MAIN [] [] [])).2.2.2.2.2 0 (by decide) (by decide)⟩

/-- C18 as stated fails on a 1x1 matrix: "`vec_get` reports `TM_ERR_NOT_VEC`
exactly when it is not the case that exactly one of `rows = 1`, `cols = 1`
holds" is false there, since both extents are 1 and yet `vec_get` and `vec_set`
report error 0 and `vec_len` is 1 (not 0). -/
theorem vec_1x1_is_vector :
    ¬ ((vec_get (demo 1 1 1 tmType.TM_MAIN [5] [] []) (some 0) 0).2 = tmErr.TM_ERR_NOT_VEC
        ↔ ¬ (((demo 1 1 1 tmType.TM_MAIN [5] [] []).mat 0).rows = 1
              ∧ ((demo 1 1 1 tmType.TM_MAIN [5] [] []).mat 0).cols ≠ 1
            ∨ ((demo 1 1 1 tmType.TM_MAIN [5] [] []).mat 0).rows ≠ 1
              ∧ ((demo 1 1 1 tmType.TM_MAIN [5] [] []).mat 0).cols = 1))
      ∧ vec_get (demo 1 1 1 tmType.TM_MAIN [5] [] []) (some 0) 0 = (5, tmErr.TM_OK)
      ∧ (vec_set (demo 1 1 1 tmType.TM_MAIN [5] [] []) (some 0) 0 9).2 = tmErr.TM_OK
      ∧ vec_len (demo 1 1 1 tmType.TM_MAIN [5] [] []) (some 0) = 1 := by
  decide

/-- C18 amended: for a present matrix, `vec_get` and `vec_set` report
`TM_ERR_NOT_VEC` exactly when neither `rows = 1` nor `cols = 1` holds, and in
that case `vec_len` is 0; a matrix with at least one extent equal to 1 is
treated as a vector. -/
theorem vec_not_vec_iff {α : Type} [Zero α] (s : State α) (h k : Nat) (v : α) :
    ((vec_get s (some h) k).2 = tmErr.TM_ERR_NOT_VEC
        ↔ (s.mat h).rows ≠ 1 ∧ (s.mat h).cols ≠ 1)
      ∧ ((vec_set s (some h) k v).2 = tmErr.TM_ERR_NOT_VEC
        ↔ (s.mat h).rows ≠ 1 ∧ (s.mat h).cols ≠ 1)
      ∧ ((s.mat h).rows ≠ 1 ∧ (s.mat h).cols ≠ 1 → vec_len s (some h) = 0) := by
  unfold vec_get vec_set vec_len
  by_cases hc : (s.mat h).cols = 1
  · by_cases hk : k < (s.mat h).rows <;> simp [hc, hk]
  · by_cases hr : (s.mat h).rows = 1
    · by_cases hk : k < (s.mat h).cols <;> simp [hc, hr, hk]
    · simp [hc, hr]

/-- Instance of C18 amended: a 2x2 matrix is not a vector for `vec_get`, and
its length is 0. -/
theorem vec_not_vec_iff_witness :
    (vec_get (demo 2 2 2 tmType.TM_MAIN [1, 2, 3, 4] [] []) (some 0) 0).2
        = tmErr.TM_ERR_NOT_VEC
      ∧ vec_len (demo 2 2 2 tmType.TM_MAIN [1, 2, 3, 4] [] []) (some 0) = 0 :=
  ⟨(vec_not_vec_iff (demo 2 2 2 tmType.TM_MAIN [1, 2, 3, 4] [] []) 0 0 9).1.mpr
      ⟨by decide, by decide⟩,
    (vec_not_vec_iff (demo 2 2 2 tmType.TM_MAIN [1, 2, 3, 4] [] []) 0 0 9).2.2
      ⟨by decide, by decide⟩⟩

/-! ## Frame of `vec_set` -/

/-- C19: on a present vector with `cols ≤ width` and a valid index `k`,
`vec_set(m, k, v)` reports error 0, keeps every record (rows, cols, width,
kind, buffer) and the released addresses, every stored element other than the
one at the address of element `k` keeps its value, and `vec_get(m, j)` is
unchanged for every other valid index `j`. -/
theorem vec_set_frame {α : Type} [Zero α] (s : State α) (h k : Nat) (v : α)
    (hk : k < vec_len s (some h)) (hw : (s.mat h).cols ≤ (s.mat h).width) :
    (vec_set s (some h) k v).2 = tmErr.TM_OK
      ∧ (vec_set s (some h) k v).1.mat = s.mat
      ∧ (vec_set s (some h) k v).1.freed = s.freed
      ∧ (∀ q : Nat, q ≠ vec_addr (s.mat h) k → (vec_set s (some h) k v).1.mem q = s.mem q)
      ∧ (∀ j : Nat, j < vec_len s (some h) → j ≠ k →
          vec_get (vec_set s (some h) k v).1 (some h) j = vec_get s (some h) j) := by
  rw [vec_set_in_range s h k v hk]
  refine ⟨rfl, rfl, rfl, ?_, ?_⟩
  · intro q hq
    simp [store, hq]
  · intro j hj hjk
    rw [vec_get_eq_addr _ h j (by show j < vec_len s (some h); exact hj),
      vec_get_eq_addr s h j hj]
    have hne := vec_addr_ne (s.mat h) hw j k hjk
    show ((store s (vec_addr (s.mat h) k) v).mem (vec_addr (s.mat h) j), tmErr.TM_OK) = _
    simp [store, hne]

/-- Instance of C19: writing 9 at index 1 of a strided 3x1 column view keeps
elements 0 and 2. -/
theorem vec_set_frame_witness :
    (vec_set (demo 3 1 2 tmType.TM_VIEW [1, 0, 2, 0, 3] [] []) (some 0) 1 9).1.mat
        = (demo 3 1 2 tmType.TM_VIEW [1, 0, 2, 0, 3] [] []).mat
      ∧ (List.range 3).map (fun j => (vec_get
          (vec_set (demo 3 1 2 tmType.TM_VIEW [1, 0, 2, 0, 3] [] []) (some 0) 1 9).1
          (some 0) j).1) = [1, 9, 3] :=
  ⟨(vec_set_frame (demo 3 1 2 tmType.TM_VIEW [1, 0, 2, 0, 3] [] []) 0 1 9
      (by decide) (by decide)).2.1,
    by decide⟩

/-! ## Squared norm against the dot product -/

/-- C20: on a present row or column vector `m` with `vec_len m > 0`,
`vec_norm2(m)` and `vec_dot(m, m)` are the same pair, with error 0; on a
present row or column vector of length 0, `vec_norm2` gives 0 with error 0 and
`vec_dot` gives 0 with `TM_ERR_NOT_VEC`. -/
theorem vec_norm2_eq_dot {α : Type} [Zero α] [Add α] [Mul α] (s : State α) (h : Nat)
    (hv : (s.mat h).cols = 1 ∨ (s.mat h).rows = 1) :
    (0 < vec_len s (some h) →
        vec_norm2 s (some h) = vec_dot s (some h) (some h)
        ∧ (vec_norm2 s (some h)).2 = tmErr.TM_OK)
      ∧ (vec_len s (some h) = 0 →
        vec_norm2 s (some h) = (0, tmErr.TM_OK)
        ∧ vec_dot s (some h) (some h) = (0, tmErr.TM_ERR_NOT_VEC)) := by
  constructor
  · intro hn
    rw [vec_norm2_eq_get s h hv, vec_dot_eq_dot_sum s h h _ hn rfl rfl]
    exact ⟨rfl, rfl⟩
  · intro h0
    constructor
    · rw [vec_norm2_eq_get s h hv, h0]
      rfl
    · simp [vec_dot, h0]

/-- Instance of C20: `(3,4)` as an owning row and as a strided column view
gives 25 both ways; a 0x1 column gives error 0 for the norm and
`TM_ERR_NOT_VEC` for the dot product. -/
theorem vec_norm2_eq_dot_witness :
    (vec_norm2 (demo 1 2 2 tmType.TM_MAIN [3, 4] [] []) (some 0)
        = vec_dot (demo 1 2 2 tmType.TM_MAIN [3, 4] [] []) (some 0) (some 0)
      ∧ vec_dot (demo 1 2 2 tmType.TM_MAIN [3, 4] [] []) (some 0) (some 0)
        = (25, tmErr.TM_OK)
      ∧ vec_dot (demo 2 1 3 tmType.TM_VIEW [3, 9, 9, 4] [] []) (some 0) (some 0)
        = (25, tmErr.TM_OK))
    ∧ (vec_norm2 (demo 0 1 1 tmType.TM_MAIN [] [] []) (some 0) = (0, tmErr.TM_OK)
      ∧ vec_dot (demo 0 1 1 tmType.TM_MAIN [] [] []) (some 0) (some 0)
        = (0, tmErr.TM_ERR_NOT_VEC)) :=
  ⟨⟨((vec_norm2_eq_dot (demo 1 2 2 tmType.TM_MAIN [3, 4] [] []) 0 (Or.inr (by decide))).1
      (by decide)).1, by decide, by decide⟩,
    (vec_norm2_eq_dot (demo 0 1 1 tmType.TM_MAIN [] [] []) 0 (Or.inl (by decide))).2
      (by decide)⟩

end TMatrix
